import Mathlib

/-!
Verification of the conversation-orchestration layer of the finance-tracker
Telegram bot (`tgbot/src/bot.ts`, `tgbot/src/types.ts`,
`tgbot/src/services/typing.ts` (agent-service variant), `tgbot/src/services/photo.ts`).

The TypeScript sources are shallowly embedded: JavaScript runtime values are
modelled by the inductive `JsValue`; operations that can throw at runtime
(property access on a nullish receiver, `JSON.parse`) live in an `Except`
monad whose error type `JsError` models thrown `TypeError` / `SyntaxError`
values, so that the placement of the source's `try`/`catch` blocks and
truthiness guards is visible in the embedding and provably sufficient.
Network and agent-runtime effects are passed in as explicit oracles.
-/

/-- Model of a JavaScript runtime value, as far as the bot's code inspects
them: `null`, `undefined`, booleans, numbers (restricted to integers —
no claim under verification involves fractional values), strings, arrays
and plain objects (ordered field lists). -/
inductive JsValue where
  | null
  | undefined
  | bool (b : Bool)
  | num (n : Int)
  | str (s : String)
  | arr (items : List JsValue)
  | obj (fields : List (String × JsValue))

/-- Model of a thrown JavaScript exception. -/
inductive JsError where
  | typeError (message : String)
  | syntaxError (message : String)

/-- JavaScript truthiness (`Boolean(v)`): `null`, `undefined`, `false`,
`0` and the empty string are falsy, everything else modelled is truthy. -/
def jsTruthy : JsValue → Bool
  | .null => false
  | .undefined => false
  | .bool b => b
  | .num n => n != 0
  | .str s => s != ""
  | .arr _ => true
  | .obj _ => true

/-- Nullish test, as used by the `??` operator: `null` or `undefined`. -/
def isNullish : JsValue → Bool
  | .null => true
  | .undefined => true
  | _ => false

/-- The nullish-coalescing operator `a ?? b`. -/
def jsCoalesce (a b : JsValue) : JsValue :=
  if isNullish a then b else a

/-- Whether `typeof v === 'object'` holds; note that in JavaScript this is
true for `null` and for arrays as well as for plain objects. -/
def typeofIsObject : JsValue → Bool
  | .null => true
  | .arr _ => true
  | .obj _ => true
  | _ => false

/-- Field lookup on an object's field list; the last binding for a key wins,
as for repeated keys in a JavaScript object literal / `JSON.parse`.
Absent keys give `undefined`. -/
def lookupField (fields : List (String × JsValue)) (key : String) : JsValue :=
  (fields.foldl (fun acc p => if p.1 == key then some p.2 else acc) none).getD .undefined

/-- Property access `v[key]`, which throws a `TypeError` when the receiver is
nullish, auto-boxes primitives (yielding `undefined` for the fields this
code reads), and looks the key up on plain objects. Element/`length` access
on arrays is not used by the embedded code and is modelled as `undefined`. -/
def getProp : JsValue → String → Except JsError JsValue
  | .null, key => .error (.typeError ("Cannot read properties of null (reading " ++ key ++ ")"))
  | .undefined, key => .error (.typeError ("Cannot read properties of undefined (reading " ++ key ++ ")"))
  | .obj fields, key => .ok (lookupField fields key)
  | _, _ => .ok .undefined

/-- Total version of property access for a receiver already known not to be
nullish; `getProp` agrees with it there (`getProp_eq_ok`). -/
def jsGetD (v : JsValue) (key : String) : JsValue :=
  match v with
  | .obj fields => lookupField fields key
  | _ => .undefined

/-- Strict equality of a runtime value with a string literal
(`v === 'lit'`). -/
def isStrEq (v : JsValue) (s : String) : Bool :=
  match v with
  | .str t => t == s
  | _ => false

/-- Model of JavaScript `String.prototype.trim`, computed on the character
list so that it evaluates inside the kernel (Lean's built-in `String.trim`
is byte-position based and does not reduce). Whitespace is modelled by
`Char.isWhitespace`, which covers the characters the repository's data
contains. -/
def jsTrim (s : String) : String :=
  String.mk (((s.toList.dropWhile Char.isWhitespace).reverse.dropWhile Char.isWhitespace).reverse)

/-- Model of JavaScript `String.prototype.startsWith`, computed on character
lists for kernel reducibility. -/
def strStartsWith (s pre : String) : Bool :=
  pre.toList.isPrefixOf s.toList

/-- Model of `String.prototype.slice(1)` (drop the first character), computed
on character lists for kernel reducibility. -/
def strDropOne (s : String) : String :=
  String.mk (s.toList.drop 1)

/-- The character `{`. -/
def lbraceChar : Char := Char.ofNat 123

/-- The character `}`. -/
def rbraceChar : Char := Char.ofNat 125

/-- JSON insignificant whitespace. -/
def isJsonWs (c : Char) : Bool :=
  c == ' ' || c == '\n' || c == '\t' || c == '\r'

/-- Skip insignificant whitespace. -/
def skipJsonWs : List Char → List Char
  | [] => []
  | c :: cs => if isJsonWs c then skipJsonWs cs else c :: cs

/-- Parse the remainder of a JSON string literal (the opening quote has been
consumed), returning its characters and the rest of the input. Supports the
escapes the repository's payloads use; unsupported escapes fail the parse. -/
def parseJsonStringChars : List Char → Option (List Char × List Char)
  | [] => none
  | c :: cs =>
    if c == '"' then some ([], cs)
    else if c == '\\' then
      match cs with
      | [] => none
      | e :: cs2 =>
        match
          (if e == '"' then some '"'
           else if e == '\\' then some '\\'
           else if e == '/' then some '/'
           else if e == 'n' then some '\n'
           else if e == 't' then some '\t'
           else if e == 'r' then some '\r'
           else none) with
        | some decoded =>
          match parseJsonStringChars cs2 with
          | some (s, rest) => some (decoded :: s, rest)
          | none => none
        | none => none
    else
      match parseJsonStringChars cs with
      | some (s, rest) => some (c :: s, rest)
      | none => none

/-- Greedily take decimal digits. -/
def takeJsonDigits : List Char → List Char × List Char
  | [] => ([], [])
  | c :: cs =>
    if c.isDigit then
      let r := takeJsonDigits cs
      (c :: r.1, r.2)
    else ([], c :: cs)

/-- Digit characters to a natural number. -/
def digitsToNat (ds : List Char) : Nat :=
  ds.foldl (fun acc c => acc * 10 + (c.toNat - 48)) 0

/-- Parse a JSON number. Only integer numerals are modelled (floating point
is out of scope of every claim); a fractional or exponent part fails the
parse, which the callers treat like any other `SyntaxError`. -/
def parseJsonNumber (cs : List Char) : Option (JsValue × List Char) :=
  match cs with
  | '-' :: rest =>
    match takeJsonDigits rest with
    | ([], _) => none
    | (ds, rest2) => some (.num (-(Int.ofNat (digitsToNat ds))), rest2)
  | _ =>
    match takeJsonDigits cs with
    | ([], _) => none
    | (ds, rest2) => some (.num (Int.ofNat (digitsToNat ds)), rest2)

mutual

/-- Parse one JSON value (fuel-bounded recursion; `jsonParse` supplies fuel
proportional to the input length, which dominates the nesting depth). -/
def parseJsonValue : Nat → List Char → Option (JsValue × List Char)
  | 0, _ => none
  | fuel + 1, cs =>
    match skipJsonWs cs with
    | [] => none
    | c :: rest =>
      if c == lbraceChar then
        match skipJsonWs rest with
        | [] => none
        | c2 :: rest2 =>
          if c2 == rbraceChar then some (.obj [], rest2)
          else
            match parseJsonMembers fuel rest with
            | some (fields, r) => some (.obj fields, r)
            | none => none
      else if c == '[' then
        match skipJsonWs rest with
        | [] => none
        | c2 :: rest2 =>
          if c2 == ']' then some (.arr [], rest2)
          else
            match parseJsonElems fuel rest with
            | some (items, r) => some (.arr items, r)
            | none => none
      else if c == '"' then
        match parseJsonStringChars rest with
        | some (s, r) => some (.str (String.mk s), r)
        | none => none
      else if c == 't' then
        match rest with
        | 'r' :: 'u' :: 'e' :: r => some (.bool true, r)
        | _ => none
      else if c == 'f' then
        match rest with
        | 'a' :: 'l' :: 's' :: 'e' :: r => some (.bool false, r)
        | _ => none
      else if c == 'n' then
        match rest with
        | 'u' :: 'l' :: 'l' :: r => some (.null, r)
        | _ => none
      else if c == '-' || c.isDigit then
        parseJsonNumber (c :: rest)
      else none

/-- Parse the members of a non-empty JSON object (input starts after the
opening brace). -/
def parseJsonMembers : Nat → List Char → Option (List (String × JsValue) × List Char)
  | 0, _ => none
  | fuel + 1, cs =>
    match skipJsonWs cs with
    | [] => none
    | c :: rest =>
      if c == '"' then
        match parseJsonStringChars rest with
        | some (key, r1) =>
          match skipJsonWs r1 with
          | ':' :: r2 =>
            match parseJsonValue fuel r2 with
            | some (v, r3) =>
              match skipJsonWs r3 with
              | [] => none
              | c2 :: r4 =>
                if c2 == ',' then
                  match parseJsonMembers fuel r4 with
                  | some (fields, r5) => some ((String.mk key, v) :: fields, r5)
                  | none => none
                else if c2 == rbraceChar then some ([(String.mk key, v)], r4)
                else none
            | none => none
          | _ => none
        | none => none
      else none

/-- Parse the elements of a non-empty JSON array (input starts after the
opening bracket). -/
def parseJsonElems : Nat → List Char → Option (List JsValue × List Char)
  | 0, _ => none
  | fuel + 1, cs =>
    match parseJsonValue fuel cs with
    | some (v, r) =>
      match skipJsonWs r with
      | [] => none
      | c :: r2 =>
        if c == ',' then
          match parseJsonElems fuel r2 with
          | some (items, r3) => some (v :: items, r3)
          | none => none
        else if c == ']' then some ([v], r2)
        else none
    | none => none

end

/-- Model of `JSON.parse`: either the parsed value or a thrown
`SyntaxError`. Trailing non-whitespace input is rejected, as in
JavaScript. -/
def jsonParse (s : String) : Except JsError JsValue :=
  let cs := s.toList
  match parseJsonValue (2 * cs.length + 2) cs with
  | some (v, rest) =>
    if (skipJsonWs rest).isEmpty then .ok v
    else .error (.syntaxError "Unexpected non-whitespace character after JSON data")
  | none => .error (.syntaxError "Unexpected token in JSON")

/-- Try to JSON-decode a string-valued field of an object, mirroring the
guarded pattern
`if (typeof output.k === 'string') { try { return JSON.parse(output.k) } catch { } }`
from `extractStructuredData`: a non-string field or a parse failure falls
through (the `SyntaxError` is swallowed by the local `catch`). -/
def parsedStringField (fields : List (String × JsValue)) (key : String) : Option JsValue :=
  match lookupField fields key with
  | .str s => (jsonParse s).toOption
  | _ => none

mutual

/-- Embedding of `extractStructuredData` (`services/typing.ts`, agent
service): recover a structured payload from a tool-call `output` value via
the source's fallback chain — falsy input and non-objects yield `null`;
arrays are scanned for the first truthy recursive decode; strings are
JSON-parsed inside a `try`/`catch`; for objects, an object-valued truthy
`json` or `structuredContent` field is preferred, then a string-valued
`data` or `text` field is JSON-decoded, and the object itself is returned
only when it carries an object-valued truthy `charts` field. The JS
function returns `any | null`; the `Except` layer records that the only
throwing operation, `JSON.parse`, is always wrapped in a `catch` (property
accesses all happen on receivers the guards prove non-nullish). -/
def extractStructuredData (output : JsValue) : Except JsError JsValue :=
  if jsTruthy output = false then .ok .null
  else
    match output with
    | .arr items => extractStructuredDataList items
    | .str s =>
      match jsonParse s with
      | .ok parsed => .ok parsed
      | .error _ => .ok .null
    | _ =>
      if typeofIsObject output = false then .ok .null
      else do
        let j ← getProp output "json"
        if jsTruthy j && typeofIsObject j then pure j
        else do
          let sc ← getProp output "structuredContent"
          if jsTruthy sc && typeofIsObject sc then pure sc
          else do
            let d ← getProp output "data"
            match (match d with | .str s => (jsonParse s).toOption | _ => none) with
            | some parsed => pure parsed
            | none => do
              let t ← getProp output "text"
              match (match t with | .str s => (jsonParse s).toOption | _ => none) with
              | some parsed => pure parsed
              | none => do
                let ch ← getProp output "charts"
                if jsTruthy ch && typeofIsObject ch then pure output
                else pure .null

/-- The `for (const item of output) { ... if (structured) return structured }`
loop of `extractStructuredData` over an array: the first recursive result
that is truthy is returned; an exhausted array yields `null`. -/
def extractStructuredDataList : List JsValue → Except JsError JsValue
  | [] => .ok .null
  | x :: xs =>
    match extractStructuredData x with
    | .error e => .error e
    | .ok structured =>
      if jsTruthy structured then .ok structured
      else extractStructuredDataList xs

end

/-- Embedding of `normalizeBase64` (`services/typing.ts`): trim, and if the
value starts with `data:`, drop everything up to and including the first
comma (`indexOf(',') === -1` keeps the trimmed value unchanged). -/
def normalizeBase64 (value : String) : String :=
  let trimmed := jsTrim value
  if !(strStartsWith trimmed "data:") then trimmed
  else
    match trimmed.toList.dropWhile (fun c => c != ',') with
    | [] => trimmed
    | _ :: rest => String.mk rest

/-- Embedding of the `WorkflowImage` record (`types.ts`). `mimeType` is kept
as a runtime value because the source fills it from untyped chart fields
(`chart.mime_type ?? chart.mimeType ?? 'image/png'`); `base64Data`,
`imageUrl` and `caption` are optional strings exactly as constructed by the
extractor. -/
structure WorkflowImage where
  fileName : String
  mimeType : JsValue
  base64Data : Option String
  imageUrl : Option String
  caption : Option String

/-- Embedding of one iteration of the `for (const [chartKey, chart, suffix]
of chartEntries)` loop body of `extractExpenseSummaryCharts` (ungated
variant, `services/typing.ts`): skip a chart that is not a truthy object;
otherwise read the base64 value under its four accepted aliases and the URL
under its four aliases, default the MIME type to `image/png`, keep a
non-blank string `title` as caption, normalize a non-blank string base64
value, trim a non-blank string URL, and skip the chart when neither datum
is usable. -/
def extractChartEntry (chart : JsValue) (suffix : String) : Except JsError (Option WorkflowImage) :=
  if !(jsTruthy chart && typeofIsObject chart) then .ok none
  else do
    let b1 ← getProp chart "base64_data"
    let b2 ← getProp chart "base64Data"
    let b3 ← getProp chart "image_base64"
    let b4 ← getProp chart "imageBase64"
    let base64Value := jsCoalesce (jsCoalesce (jsCoalesce b1 b2) b3) b4
    let u1 ← getProp chart "image_url"
    let u2 ← getProp chart "imageUrl"
    let u3 ← getProp chart "url"
    let u4 ← getProp chart "href"
    let imageUrlValue := jsCoalesce (jsCoalesce (jsCoalesce u1 u2) u3) u4
    let m1 ← getProp chart "mime_type"
    let m2 ← getProp chart "mimeType"
    let mimeType := jsCoalesce (jsCoalesce m1 m2) (.str "image/png")
    let titleValue ← getProp chart "title"
    let caption : Option String :=
      match titleValue with
      | .str s => if jsTrim s != "" then some s else none
      | _ => none
    let normalizedBase64 : Option String :=
      match base64Value with
      | .str s => if jsTrim s != "" then some (normalizeBase64 s) else none
      | _ => none
    let normalizedUrl : Option String :=
      match imageUrlValue with
      | .str s => if jsTrim s != "" then some (jsTrim s) else none
      | _ => none
    match normalizedBase64, normalizedUrl with
    | none, none => pure none
    | _, _ =>
      pure (some ⟨"expense-summary-" ++ suffix ++ ".png", mimeType, normalizedBase64, normalizedUrl, caption⟩)

/-- Embedding of the per-item body of `extractExpenseSummaryCharts` (ungated
variant): skip falsy items and items whose `type` is not
`'tool_call_item'`; read `item.rawItem ?? {}` and recover structured data
from its `output`; require a truthy object payload with a truthy object
`charts` field; then process `bar_chart ?? barChart` and
`pie_chart ?? pieChart`, in that order. -/
def extractChartsFromItem (item : JsValue) : Except JsError (List WorkflowImage) :=
  if jsTruthy item = false then .ok []
  else do
    let ty ← getProp item "type"
    if isStrEq ty "tool_call_item" = false then pure []
    else do
      let rawItem0 ← getProp item "rawItem"
      let rawItem := jsCoalesce rawItem0 (.obj [])
      let outputValue ← getProp rawItem "output"
      let structured ← extractStructuredData outputValue
      if !(jsTruthy structured && typeofIsObject structured) then pure []
      else do
        let charts ← getProp structured "charts"
        if !(jsTruthy charts && typeofIsObject charts) then pure []
        else do
          let bc1 ← getProp charts "bar_chart"
          let bc2 ← getProp charts "barChart"
          let pc1 ← getProp charts "pie_chart"
          let pc2 ← getProp charts "pieChart"
          let barImage ← extractChartEntry (jsCoalesce bc1 bc2) "bar"
          let pieImage ← extractChartEntry (jsCoalesce pc1 pc2) "pie"
          pure (barImage.toList ++ pieImage.toList)

/-- The `for (const [itemIdx, item] of newItems.entries())` loop of
`extractExpenseSummaryCharts`, collecting extracted images in order. -/
def extractItemsLoop : List JsValue → Except JsError (List WorkflowImage)
  | [] => .ok []
  | item :: rest => do
    let images ← extractChartsFromItem item
    let more ← extractItemsLoop rest
    pure (images ++ more)

/-- Embedding of `extractExpenseSummaryCharts` (ungated variant,
`services/typing.ts`): a non-array or empty `newItems` yields no images;
otherwise every item is scanned in order. -/
def extractExpenseSummaryCharts (newItems : JsValue) : Except JsError (List WorkflowImage) :=
  match newItems with
  | .arr items => if items.isEmpty then .ok [] else extractItemsLoop items
  | _ => .ok []

/-- Index of a character in the base64 alphabet; the URL-safe alphabet is
also accepted, other characters (including padding) are ignored, matching
Node's forgiving `Buffer.from(s, 'base64')` decoder. -/
def base64CharIndex (c : Char) : Option Nat :=
  if 'A' ≤ c ∧ c ≤ 'Z' then some (c.toNat - 65)
  else if 'a' ≤ c ∧ c ≤ 'z' then some (c.toNat - 97 + 26)
  else if '0' ≤ c ∧ c ≤ '9' then some (c.toNat - 48 + 52)
  else if c == '+' || c == '-' then some 62
  else if c == '/' || c == '_' then some 63
  else none

/-- Pack a list of 6-bit values into bytes: each complete group of four
sextets yields three bytes; a trailing group of three yields two bytes, of
two yields one byte, and a single leftover sextet is dropped. -/
def base64Group : List Nat → List Nat
  | a :: b :: c :: d :: rest =>
    (a * 4 + b / 16) :: ((b % 16) * 16 + c / 4) :: ((c % 4) * 64 + d) :: base64Group rest
  | [a, b, c] => [a * 4 + b / 16, (b % 16) * 16 + c / 4]
  | [a, b] => [a * 4 + b / 16]
  | _ => []

/-- Model of Node's `Buffer.from(value, 'base64')`: non-alphabet characters
are skipped, then sextets are packed into bytes. -/
def base64Decode (s : String) : List Nat :=
  base64Group (s.toList.filterMap base64CharIndex)

/-- Model of one HTTP response as observed by `downloadImageFromUrl`:
status code, optional `Location` header, optional `Content-Type` header and
the accumulated body bytes. The network is an oracle `String → HttpResponse`
from URL to response; URL strings are treated as opaque (the embedded code's
`new URL(location, base)` resolution is absorbed into the oracle, and URL
parse failures are not exercised by any claim). -/
structure HttpResponse where
  statusCode : Nat
  location : Option String
  contentType : Option String
  body : List Nat

/-- Errors of the image-delivery pipeline (`types.ts`). The source throws
plain `Error` values with distinct Chinese messages; the constructors stand
for, in order: `未提供可用的图像数据。` (no usable image data),
`重定向次数过多，无法下载图像。` (too many redirects), and
`下载图像失败，状态码: N` (download failed with status `N`). -/
inductive ImageError where
  | noImageData
  | tooManyRedirects
  | downloadFailed (statusCode : Nat)

/-- The payload produced by the resolver: a byte buffer and the content type
(`undefined` when the response carried none). -/
structure DownloadPayload where
  buffer : List Nat
  contentType : JsValue

/-- An optional `Content-Type` header as a runtime value. -/
def headerContentTypeJs : Option String → JsValue
  | some s => .str s
  | none => .undefined

/-- The redirect bound `MAX_REDIRECTS` of `downloadImageFromUrl`. -/
def MAX_REDIRECTS : Nat := 3

/-- The non-redirect tail of `downloadImageFromUrl`: reject a status of 400
or more, otherwise resolve with the accumulated body and the response's
`Content-Type`. -/
def downloadCompleteBody (response : HttpResponse) : Except ImageError DownloadPayload :=
  if response.statusCode ≥ 400 then .error (.downloadFailed response.statusCode)
  else .ok ⟨response.body, headerContentTypeJs response.contentType⟩

/-- Embedding of `downloadImageFromUrl` (`types.ts`): on a 3xx response with
a (truthy) `Location` header, give up with `tooManyRedirects` when
`redirectCount >= MAX_REDIRECTS` and otherwise follow the redirect with the
count increased; any other response is completed by `downloadCompleteBody`. -/
def downloadImageFromUrl (net : String → HttpResponse) (imageUrl : String) (redirectCount : Nat) : Except ImageError DownloadPayload :=
  let response := net imageUrl
  match response.location with
  | some location =>
    if 300 ≤ response.statusCode ∧ response.statusCode < 400 ∧ location ≠ "" then
      if redirectCount ≥ MAX_REDIRECTS then .error .tooManyRedirects
      else downloadImageFromUrl net location (redirectCount + 1)
    else downloadCompleteBody response
  | none => downloadCompleteBody response
termination_by MAX_REDIRECTS + 1 - redirectCount
decreasing_by simp only [MAX_REDIRECTS] at *; omega

/-- The URL arm of `resolveImagePayload`: a truthy `imageUrl` is downloaded
(with `redirectCount` starting at 0); otherwise the resolver throws
`noImageData`. -/
def resolveViaUrl (net : String → HttpResponse) (image : WorkflowImage) : Except ImageError DownloadPayload :=
  match image.imageUrl with
  | some u => if u ≠ "" then downloadImageFromUrl net u 0 else .error .noImageData
  | none => .error .noImageData

/-- Embedding of `resolveImagePayload` (`types.ts`): a truthy `base64Data`
that is non-blank after trimming is decoded directly, with the image's own
`mimeType` as content type; otherwise the URL arm is tried. -/
def resolveImagePayload (net : String → HttpResponse) (image : WorkflowImage) : Except ImageError DownloadPayload :=
  match image.base64Data with
  | some s =>
    if s ≠ "" ∧ jsTrim s ≠ "" then .ok ⟨base64Decode s, image.mimeType⟩
    else resolveViaUrl net image
  | none => resolveViaUrl net image

/-- Embedding of the `QuickAction` record (`constants/quickActions.ts`). -/
structure QuickAction where
  title : String
  prompt : String
  aliases : List String

/-- Embedding of the `QUICK_ACTIONS` registry (`constants/quickActions.ts`),
as the ordered key-to-action table `Object.entries` iterates over. -/
def QUICK_ACTIONS : List (String × QuickAction) :=
  [ ("report_recent",
      ⟨"生成最近开销报表", "请生成最近开销报表。",
        ["生成最近开销报表", "/report", "report"]⟩),
    ("compare_weekly",
      ⟨"对比本周和上周支出", "请对比本周和上周的支出情况，并给出主要差异和建议。",
        ["对比本周和上周支出", "/compare", "compare"]⟩),
    ("compare_monthly",
      ⟨"对比本月和上月支出", "请对比本月与上月的支出结构，指出显著变化并提供优化建议。",
        ["对比本月和上月支出", "/compare_monthly"]⟩),
    ("detail",
      ⟨"查看分类支出详情", "请提供最近一段时间各分类的支出详情。",
        ["查看分类支出详情", "/detail"]⟩),
    ("budget_health_check",
      ⟨"预算执行健康检查", "请评估当前预算执行情况，指出超支或结余的类别，并给出调优建议。",
        ["预算执行健康检查", "预算健康检查"]⟩),
    ("savings_insights",
      ⟨"储蓄与现金流洞察", "请分析近期储蓄及现金流趋势，指出潜在风险并提供改善建议。",
        ["储蓄洞察", "现金流洞察"]⟩) ]

/-- Embedding of `resolveQuickAction` (`constants/quickActions.ts`): trim the
input; an empty result resolves to nothing; then (a) strip one leading slash
and look the result up among the registry keys; (b) otherwise scan the
entries in order for one whose aliases contain, or whose title equals, the
trimmed input (with its slash intact). -/
def resolveQuickAction (text : String) : Option (String × QuickAction) :=
  let normalized := jsTrim text
  if normalized = "" then none
  else
    let withoutSlash := if strStartsWith normalized "/" then strDropOne normalized else normalized
    match QUICK_ACTIONS.lookup withoutSlash with
    | some action => some (withoutSlash, action)
    | none =>
      QUICK_ACTIONS.find? (fun e => e.2.aliases.contains normalized || e.2.title == normalized)

/-- Embedding of the `StoredPhoto` record (`types.ts`): the self-contained
in-memory representation of one ingested photo. -/
structure StoredPhoto where
  fileId : String
  fileName : String
  mimeType : String
  base64Data : String

/-- The `pendingPhotos` map of `bot.ts` (`Map<number, StoredPhoto[]>`),
keyed by chat identifier; `none` models an absent key. -/
def PendingMap : Type := Int → Option (List StoredPhoto)

/-- `pendingPhotos.set(chatId, photos)`. -/
def mapSet (m : PendingMap) (chatId : Int) (photos : List StoredPhoto) : PendingMap :=
  fun c => if c = chatId then some photos else m c

/-- `pendingPhotos.delete(chatId)`. -/
def mapDelete (m : PendingMap) (chatId : Int) : PendingMap :=
  fun c => if c = chatId then none else m c

/-- `pendingPhotos.get(chatId) ?? []`. -/
def mapGetOrEmpty (m : PendingMap) (chatId : Int) : List StoredPhoto :=
  (m chatId).getD []

/-- The reply sent for a caption-less photo:
`已收到图片，目前共${photoCount}张，请继续发送文字描述，我们会一起处理。`. -/
def photoReceivedReply (photoCount : Nat) : String :=
  "已收到图片，目前共" ++ toString photoCount ++ "张，请继续发送文字描述，我们会一起处理。"

/-- Embedding of the caption-less part of the photo branch of the `bot.ts`
message handler: append the downloaded photo to the chat's buffer
(`get(chatId) ?? []`, `push`, `set`) and reply with the running count. -/
def photoNoCaption (m : PendingMap) (chatId : Int) (storedPhoto : StoredPhoto) : PendingMap × String :=
  let existingPhotos := mapGetOrEmpty m chatId
  let updated := existingPhotos ++ [storedPhoto]
  (mapSet m chatId updated, photoReceivedReply updated.length)

/-- A sequence of caption-less photo messages for one chat, processed in
arrival order; returns the final map and the replies in order. -/
def processPhotos (m : PendingMap) (chatId : Int) : List StoredPhoto → PendingMap × List String
  | [] => (m, [])
  | p :: ps =>
    let step := photoNoCaption m chatId p
    let rest := processPhotos step.1 chatId ps
    (rest.1, step.2 :: rest.2)

/-- Detail level of an image content part (`'low' | 'high' | 'auto'`). -/
inductive ImageDetail where
  | low
  | high
  | auto

/-- Embedding of the `InputPartWithFileId` union (`types.ts`): a text part,
or an image part referencing an uploaded file id. -/
inductive InputPartWithFileId where
  | input_text (text : String)
  | input_image (id : String) (detail : ImageDetail)

/-- The generic reply of the dispatcher's top-level `catch`:
`处理消息时发生错误，请稍后再试。`. -/
def genericErrorReply : String := "处理消息时发生错误，请稍后再试。"

/-- Embedding of the text branch of the `bot.ts` message handler, with the
two effectful steps passed in as oracles: `buildParts` models
`buildContentPartsWithFileIds` over the snapshot of the chat's buffer
(it may throw — photo upload is a network call), and `runWorkflow` models
`sendWorkflowResult`. The buffer entry is deleted between the two, exactly
as in the source; a thrown error from either oracle propagates to the
dispatcher's `catch`, which only sends `genericErrorReply`. Returns the
resulting map and the error reply, if any. -/
def textBranch (m : PendingMap) (chatId : Int)
    (buildParts : List StoredPhoto → Except String (List InputPartWithFileId))
    (runWorkflow : List InputPartWithFileId → Except String Unit) :
    PendingMap × Option String :=
  let storedPhotos := mapGetOrEmpty m chatId
  match buildParts storedPhotos with
  | .error _ => (m, some genericErrorReply)
  | .ok parts =>
    let m1 := mapDelete m chatId
    match runWorkflow parts with
    | .error _ => (m1, some genericErrorReply)
    | .ok _ => (m1, none)

/-- Embedding of the captioned-photo branch of the `bot.ts` message handler:
the photo is first appended to the buffer (as in `photoNoCaption`), then
parts are built from the updated buffer, the buffer entry is deleted, and
the workflow result is sent; error propagation as in `textBranch`. -/
def photoCaptionBranch (m : PendingMap) (chatId : Int) (storedPhoto : StoredPhoto)
    (buildParts : List StoredPhoto → Except String (List InputPartWithFileId))
    (runWorkflow : List InputPartWithFileId → Except String Unit) :
    PendingMap × Option String :=
  let existingPhotos := mapGetOrEmpty m chatId
  let updated := existingPhotos ++ [storedPhoto]
  let m1 := mapSet m chatId updated
  match buildParts updated with
  | .error _ => (m1, some genericErrorReply)
  | .ok parts =>
    let m2 := mapDelete m1 chatId
    match runWorkflow parts with
    | .error _ => (m2, some genericErrorReply)
    | .ok _ => (m2, none)

/-- Embedding of `uploadPhotosAndGetFileIds` (`services/photo.ts`): one
sequential upload per photo, collecting the returned file ids in order. The
file store is an explicit state `σ` threaded through the oracle
`uploadFile`, so that the order of the network calls is observable. -/
def uploadPhotosAndGetFileIds {σ : Type} (uploadFile : σ → StoredPhoto → σ × String) (store : σ) :
    List StoredPhoto → σ × List String
  | [] => (store, [])
  | photo :: rest =>
    let r := uploadFile store photo
    let next := uploadPhotosAndGetFileIds uploadFile r.1 rest
    (next.1, r.2 :: next.2)

/-- Embedding of `buildContentPartsWithFileIds` (`services/photo.ts`): upload
all photos, emit one `input_image` part per returned id with detail fixed at
`high`, then append the single trailing `input_text` part. -/
def buildContentPartsWithFileIds {σ : Type} (uploadFile : σ → StoredPhoto → σ × String) (store : σ)
    (text : String) (photos : List StoredPhoto) : σ × List InputPartWithFileId :=
  let up := uploadPhotosAndGetFileIds uploadFile store photos
  (up.1, up.2.map (fun id => .input_image id .high) ++ [.input_text text])

/-- The agent-run result as `runWorkflowFromParts` inspects it:
`finalOutput` (absent or empty models the falsy cases) and the raw
`newItems` trace. -/
structure AgentRunResult where
  finalOutput : Option String
  newItems : JsValue

/-- Embedding of the `WorkflowResult` record (`types.ts`). -/
structure WorkflowResult where
  output_text : String
  images : List WorkflowImage

/-- Errors of `runWorkflowFromParts` (`services/agent.ts`). The source throws
plain `Error` values; the constructors stand for, in order: `Missing
OPENAI_API_KEY`, `contentParts is empty.`, and `Agent result is undefined
(no final output).`. `extractionFailure` models an exception escaping the
chart extraction (provably unreachable). -/
inductive WorkflowError where
  | configurationError
  | invalidInputError
  | emptyResultError
  | extractionFailure (e : JsError)

/-- Embedding of `runWorkflowFromParts` (`services/agent.ts`): fail when the
agent credential is absent or empty (`!process.env.OPENAI_API_KEY`), then
when the content-part list is empty, both before the agent runs (the run
outcome `runAgent` is not consulted); a missing run result or a falsy
`finalOutput` fails with `emptyResultError`; otherwise the charts are
extracted from `newItems ?? []` and the final text is returned. -/
def runWorkflowFromParts (apiKey : Option String) (runAgent : Option AgentRunResult)
    (contentParts : List InputPartWithFileId) : Except WorkflowError WorkflowResult :=
  if apiKey = none ∨ apiKey = some "" then .error .configurationError
  else if contentParts.isEmpty then .error .invalidInputError
  else
    match runAgent with
    | none => .error .emptyResultError
    | some result =>
      match result.finalOutput with
      | none => .error .emptyResultError
      | some t =>
        if t = "" then .error .emptyResultError
        else
          match extractExpenseSummaryCharts (jsCoalesce result.newItems (.arr [])) with
          | .ok images => .ok ⟨t, images⟩
          | .error e => .error (.extractionFailure e)


/-- A network oracle describing a redirect chain with exactly three
redirects: `u0 → u1 → u2 → u3`, where `u3` answers 200 with a body. -/
def chainNet3 : String → HttpResponse := fun u =>
  if u = "u0" then ⟨302, some "u1", none, []⟩
  else if u = "u1" then ⟨301, some "u2", none, []⟩
  else if u = "u2" then ⟨303, some "u3", none, []⟩
  else ⟨200, none, some "image/png", [137, 80, 78, 71]⟩

/-- A network oracle describing a redirect chain with four redirects:
`u0 → u1 → u2 → u3 → u4`, where `u4` answers 200 with a body. -/
def chainNet4 : String → HttpResponse := fun u =>
  if u = "u0" then ⟨302, some "u1", none, []⟩
  else if u = "u1" then ⟨301, some "u2", none, []⟩
  else if u = "u2" then ⟨303, some "u3", none, []⟩
  else if u = "u3" then ⟨307, some "u4", none, []⟩
  else ⟨200, none, some "image/png", [137, 80, 78, 71]⟩

theorem getProp_eq_ok (v : JsValue) (key : String) (h : isNullish v = false) :
    getProp v key = .ok (jsGetD v key) := by
  cases v <;> simp_all [getProp, jsGetD, isNullish]

theorem jsTruthy_not_nullish (v : JsValue) (h : jsTruthy v = true) : isNullish v = false := by
  cases v <;> simp_all [jsTruthy, isNullish]

theorem isNullish_coalesce_obj (v : JsValue) (fields : List (String × JsValue)) :
    isNullish (jsCoalesce v (.obj fields)) = false := by
  cases v <;> simp [jsCoalesce, isNullish]

theorem not_bang_and (a b : Bool) (h : ¬((!(a && b)) = true)) : a = true ∧ b = true := by
  cases a <;> cases b <;> simp_all

theorem except_bind_ok {α β ε : Type} (a : α) (f : α → Except ε β) :
    (Except.ok a : Except ε α) >>= f = f a := rfl

mutual

theorem extractStructuredData_total (v : JsValue) :
    ∃ r, extractStructuredData v = .ok r := by
  cases v with
  | arr items =>
    simpa [extractStructuredData, jsTruthy] using extractStructuredDataList_total items
  | str s =>
    simp only [extractStructuredData]
    split
    · exact ⟨_, rfl⟩
    · split <;> exact ⟨_, rfl⟩
  | obj fields =>
    simp only [extractStructuredData, jsTruthy, typeofIsObject, getProp, except_bind_ok,
      Bool.false_eq_true, reduceIte]
    repeat' first
      | exact ⟨_, rfl⟩
      | split
  | null => exact ⟨_, rfl⟩
  | undefined => exact ⟨_, rfl⟩
  | bool b => cases b <;> exact ⟨_, rfl⟩
  | num n =>
    simp only [extractStructuredData, jsTruthy, typeofIsObject]
    split <;> exact ⟨_, rfl⟩

theorem extractStructuredDataList_total (xs : List JsValue) :
    ∃ r, extractStructuredDataList xs = .ok r := by
  cases xs with
  | nil => exact ⟨_, rfl⟩
  | cons x rest =>
    obtain ⟨r, hr⟩ := extractStructuredData_total x
    simp only [extractStructuredDataList, hr]
    split
    · exact ⟨_, rfl⟩
    · exact extractStructuredDataList_total rest

end

theorem getProp_obj (fields : List (String × JsValue)) (key : String) :
    getProp (.obj fields) key = .ok (lookupField fields key) := rfl

theorem extractChartEntry_total (chart : JsValue) (suffix : String) :
    ∃ r, extractChartEntry chart suffix = .ok r := by
  cases chart with
  | arr items =>
    simp only [extractChartEntry, jsTruthy, typeofIsObject, getProp, except_bind_ok,
      Bool.and_self, Bool.not_true, Bool.false_eq_true, reduceIte]
    repeat' first
      | exact ⟨_, rfl⟩
      | split
  | obj fields =>
    simp only [extractChartEntry, jsTruthy, typeofIsObject, getProp, except_bind_ok,
      Bool.and_self, Bool.not_true, Bool.false_eq_true, reduceIte]
    repeat' first
      | exact ⟨_, rfl⟩
      | split
  | null => exact ⟨_, rfl⟩
  | undefined => exact ⟨_, rfl⟩
  | bool b => cases b <;> exact ⟨_, rfl⟩
  | num n =>
    simp only [extractChartEntry, jsTruthy, typeofIsObject, Bool.and_false, Bool.not_false,
      reduceIte]
    exact ⟨_, rfl⟩
  | str s =>
    simp only [extractChartEntry, jsTruthy, typeofIsObject, Bool.and_false, Bool.not_false,
      reduceIte]
    exact ⟨_, rfl⟩

theorem extractChartsFromItem_total (item : JsValue) :
    ∃ r, extractChartsFromItem item = .ok r := by
  cases item with
  | null => exact ⟨_, rfl⟩
  | undefined => exact ⟨_, rfl⟩
  | bool b => cases b <;> exact ⟨_, rfl⟩
  | arr items => exact ⟨_, rfl⟩
  | num n =>
    simp only [extractChartsFromItem, jsTruthy, getProp, except_bind_ok]
    split
    · exact ⟨_, rfl⟩
    · exact ⟨_, rfl⟩
  | str s =>
    simp only [extractChartsFromItem, jsTruthy, getProp, except_bind_ok]
    split
    · exact ⟨_, rfl⟩
    · exact ⟨_, rfl⟩
  | obj fields =>
    simp only [extractChartsFromItem, getProp_obj, except_bind_ok]
    rw [if_neg (by simp [jsTruthy])]
    split
    · exact ⟨_, rfl⟩
    · rw [getProp_eq_ok _ _ (isNullish_coalesce_obj _ _), except_bind_ok]
      obtain ⟨structured, hs⟩ := extractStructuredData_total
        (jsGetD (jsCoalesce (lookupField fields "rawItem") (.obj [])) "output")
      rw [hs, except_bind_ok]
      split
      · exact ⟨_, rfl⟩
      · rename_i hguard0
        have hguard := not_bang_and _ _ hguard0
        rw [getProp_eq_ok _ _ (jsTruthy_not_nullish _ hguard.1), except_bind_ok]
        split
        · exact ⟨_, rfl⟩
        · rename_i hguard1
          have hguard2 := not_bang_and _ _ hguard1
          have hnn := jsTruthy_not_nullish _ hguard2.1
          rw [getProp_eq_ok _ _ hnn, except_bind_ok, getProp_eq_ok _ _ hnn, except_bind_ok,
            getProp_eq_ok _ _ hnn, except_bind_ok, getProp_eq_ok _ _ hnn, except_bind_ok]
          obtain ⟨barImage, hb⟩ := extractChartEntry_total
            (jsCoalesce (jsGetD (jsGetD structured "charts") "bar_chart")
              (jsGetD (jsGetD structured "charts") "barChart")) "bar"
          rw [hb, except_bind_ok]
          obtain ⟨pieImage, hp⟩ := extractChartEntry_total
            (jsCoalesce (jsGetD (jsGetD structured "charts") "pie_chart")
              (jsGetD (jsGetD structured "charts") "pieChart")) "pie"
          rw [hp, except_bind_ok]
          exact ⟨_, rfl⟩

theorem extractItemsLoop_total (items : List JsValue) :
    ∃ r, extractItemsLoop items = .ok r := by
  induction items with
  | nil => exact ⟨_, rfl⟩
  | cons item rest ih =>
    obtain ⟨r1, h1⟩ := extractChartsFromItem_total item
    obtain ⟨r2, h2⟩ := ih
    exact ⟨r1 ++ r2, by simp only [extractItemsLoop, h1, h2, except_bind_ok]; rfl⟩

theorem extractExpenseSummaryCharts_total (newItems : JsValue) :
    ∃ r, extractExpenseSummaryCharts newItems = .ok r := by
  cases newItems with
  | arr items =>
    simp only [extractExpenseSummaryCharts]
    split
    · exact ⟨_, rfl⟩
    · exact extractItemsLoop_total items
  | null => exact ⟨_, rfl⟩
  | undefined => exact ⟨_, rfl⟩
  | bool b => exact ⟨_, rfl⟩
  | num n => exact ⟨_, rfl⟩
  | str s => exact ⟨_, rfl⟩
  | obj fields => exact ⟨_, rfl⟩

theorem extractStructuredData_obj (fields : List (String × JsValue)) :
    extractStructuredData (.obj fields) =
      (if jsTruthy (lookupField fields "json") && typeofIsObject (lookupField fields "json") then
        .ok (lookupField fields "json")
      else if jsTruthy (lookupField fields "structuredContent")
          && typeofIsObject (lookupField fields "structuredContent") then
        .ok (lookupField fields "structuredContent")
      else
        match parsedStringField fields "data" with
        | some parsed => .ok parsed
        | none =>
          match parsedStringField fields "text" with
          | some parsed => .ok parsed
          | none =>
            if jsTruthy (lookupField fields "charts")
                && typeofIsObject (lookupField fields "charts") then
              .ok (.obj fields)
            else .ok .null) := rfl

/-- C4: the chart-artifact extractor, on a trace entry whose output is the
JSON string with a bar chart carrying base64 data `AAAA` and title `T`,
extracts exactly one image with caption `T` and base64 data `AAAA` (and the
defaulted `image/png` MIME type); on an entry whose decoded payload has no
`charts` key it extracts zero images without throwing. -/
theorem chartExtractor_concreteBarChart :
    extractExpenseSummaryCharts
        (.arr [.obj [("type", .str "tool_call_item"),
          ("rawItem", .obj [("output",
            .str "\x7b\"charts\":\x7b\"bar_chart\":\x7b\"base64_data\":\"AAAA\",\"title\":\"T\"\x7d\x7d\x7d")])]])
      = .ok [⟨"expense-summary-bar.png", .str "image/png", some "AAAA", none, some "T"⟩]
    ∧ extractExpenseSummaryCharts
        (.arr [.obj [("type", .str "tool_call_item"),
          ("rawItem", .obj [("output", .str "\x7b\"foo\":1\x7d")])]])
      = .ok [] := ⟨rfl, rfl⟩

/-- C5: chart extraction is defensive — for every input value, of any shape,
it terminates with an `.ok` result (a possibly-empty image list) and never
propagates a thrown exception; every fallible decode step is guarded or
caught. -/
theorem chartExtractor_neverThrows (newItems : JsValue) :
    ∃ images, extractExpenseSummaryCharts newItems = .ok images :=
  extractExpenseSummaryCharts_total newItems

/-- Counterexample to C6: an output that is already a mapping is not used
directly as the decoded payload — for the mapping with a `json` sub-field
the decoder returns the sub-field, which differs from the mapping itself. -/
theorem structuredData_mappingNotUsedDirectly :
    extractStructuredData (.obj [("json", .obj [("x", .num 1)])]) = .ok (.obj [("x", .num 1)])
    ∧ JsValue.obj [("x", .num 1)] ≠ JsValue.obj [("json", .obj [("x", .num 1)])] :=
  ⟨rfl, by simp⟩

/-- C6 (amended): the fallback chain on a mapping output prefers a truthy
object-valued `json` sub-field, then `structuredContent`, then a
JSON-decodable string `data` field, then a JSON-decodable string `text`
field; the mapping itself is used directly only when none of those apply
and it has a truthy object-valued `charts` field, and otherwise no
structured data is reported; a list is recursed over taking the first
truthy decode, and a string output is JSON-decoded. -/
theorem structuredData_fallbackChain :
    (∀ fields,
      (jsTruthy (lookupField fields "json") && typeofIsObject (lookupField fields "json")) = true →
      extractStructuredData (.obj fields) = .ok (lookupField fields "json"))
    ∧ (∀ fields,
      (jsTruthy (lookupField fields "json") && typeofIsObject (lookupField fields "json")) = false →
      (jsTruthy (lookupField fields "structuredContent")
        && typeofIsObject (lookupField fields "structuredContent")) = true →
      extractStructuredData (.obj fields) = .ok (lookupField fields "structuredContent"))
    ∧ (∀ fields parsed,
      (jsTruthy (lookupField fields "json") && typeofIsObject (lookupField fields "json")) = false →
      (jsTruthy (lookupField fields "structuredContent")
        && typeofIsObject (lookupField fields "structuredContent")) = false →
      parsedStringField fields "data" = some parsed →
      extractStructuredData (.obj fields) = .ok parsed)
    ∧ (∀ fields parsed,
      (jsTruthy (lookupField fields "json") && typeofIsObject (lookupField fields "json")) = false →
      (jsTruthy (lookupField fields "structuredContent")
        && typeofIsObject (lookupField fields "structuredContent")) = false →
      parsedStringField fields "data" = none →
      parsedStringField fields "text" = some parsed →
      extractStructuredData (.obj fields) = .ok parsed)
    ∧ (∀ fields,
      (jsTruthy (lookupField fields "json") && typeofIsObject (lookupField fields "json")) = false →
      (jsTruthy (lookupField fields "structuredContent")
        && typeofIsObject (lookupField fields "structuredContent")) = false →
      parsedStringField fields "data" = none →
      parsedStringField fields "text" = none →
      (jsTruthy (lookupField fields "charts") && typeofIsObject (lookupField fields "charts")) = true →
      extractStructuredData (.obj fields) = .ok (.obj fields))
    ∧ (∀ fields,
      (jsTruthy (lookupField fields "json") && typeofIsObject (lookupField fields "json")) = false →
      (jsTruthy (lookupField fields "structuredContent")
        && typeofIsObject (lookupField fields "structuredContent")) = false →
      parsedStringField fields "data" = none →
      parsedStringField fields "text" = none →
      (jsTruthy (lookupField fields "charts") && typeofIsObject (lookupField fields "charts")) = false →
      extractStructuredData (.obj fields) = .ok .null)
    ∧ (∀ x xs v, extractStructuredData x = .ok v → jsTruthy v = true →
      extractStructuredData (.arr (x :: xs)) = .ok v)
    ∧ (∀ x xs v, extractStructuredData x = .ok v → jsTruthy v = false →
      extractStructuredData (.arr (x :: xs)) = extractStructuredDataList xs)
    ∧ (∀ s v, jsonParse s = .ok v → s ≠ "" → extractStructuredData (.str s) = .ok v) := by
  refine ⟨?_, ?_, ?_, ?_, ?_, ?_, ?_, ?_, ?_⟩
  · intro fields h
    rw [extractStructuredData_obj, if_pos h]
  · intro fields h1 h2
    rw [extractStructuredData_obj, if_neg (by simp [h1]), if_pos h2]
  · intro fields parsed h1 h2 hd
    rw [extractStructuredData_obj, if_neg (by simp [h1]), if_neg (by simp [h2]), hd]
  · intro fields parsed h1 h2 hd ht
    rw [extractStructuredData_obj, if_neg (by simp [h1]), if_neg (by simp [h2]), hd, ht]
  · intro fields h1 h2 hd ht hc
    rw [extractStructuredData_obj, if_neg (by simp [h1]), if_neg (by simp [h2]), hd, ht, if_pos hc]
  · intro fields h1 h2 hd ht hc
    rw [extractStructuredData_obj, if_neg (by simp [h1]), if_neg (by simp [h2]), hd, ht,
      if_neg (by simp [hc])]
  · intro x xs v hx hv
    have harr : extractStructuredData (JsValue.arr (x :: xs)) = extractStructuredDataList (x :: xs) := rfl
    rw [harr]
    simp only [extractStructuredDataList, hx, hv, reduceIte]
  · intro x xs v hx hv
    have harr : extractStructuredData (JsValue.arr (x :: xs)) = extractStructuredDataList (x :: xs) := rfl
    rw [harr]
    simp only [extractStructuredDataList, hx, hv, Bool.false_eq_true, reduceIte]
  · intro s v hp hs
    simp only [extractStructuredData, jsTruthy, hp]
    rw [if_neg (by simpa using hs)]

/-- C9: quick-action resolution first tries the trimmed input, with one
leading slash stripped, as a registry key (as `/detail` demonstrates), and
only then an exact, case-sensitive match against each entry's aliases and
title in registry order; `/report` (via alias) and `生成最近开销报表` (via
alias/title) resolve to the same key `report_recent`, and unrecognized text
resolves to nothing. As a Lean function the embedding is pure by
construction, matching the source's freedom from side effects. -/
theorem quickActionResolution :
    ((resolveQuickAction "/report").map Prod.fst = some "report_recent")
    ∧ ((resolveQuickAction "生成最近开销报表").map Prod.fst = some "report_recent")
    ∧ (resolveQuickAction "unknown-text" = none)
    ∧ ((resolveQuickAction "/detail").map Prod.fst = some "detail")
    ∧ (∀ text action,
        jsTrim text ≠ "" →
        QUICK_ACTIONS.lookup
          (if strStartsWith (jsTrim text) "/" then strDropOne (jsTrim text) else jsTrim text)
          = some action →
        resolveQuickAction text
          = some ((if strStartsWith (jsTrim text) "/" then strDropOne (jsTrim text) else jsTrim text),
              action))
    ∧ (∀ text,
        jsTrim text ≠ "" →
        QUICK_ACTIONS.lookup
          (if strStartsWith (jsTrim text) "/" then strDropOne (jsTrim text) else jsTrim text)
          = none →
        resolveQuickAction text
          = QUICK_ACTIONS.find?
              (fun e => e.2.aliases.contains (jsTrim text) || e.2.title == jsTrim text)) := by
  refine ⟨rfl, rfl, rfl, rfl, ?_, ?_⟩
  · intro text action hne hlook
    simp only [resolveQuickAction, if_neg hne, hlook]
  · intro text hne hlook
    simp only [resolveQuickAction, if_neg hne, hlook]

/-- C7: the image-delivery resolver's case split — usable (non-blank)
base64 data is decoded directly, with the data-URL prefix stripped by the
extractor's normalization before the data reaches the resolver (in
particular for `data:image/png;base64,AAAA` the delivered bytes are the
decoding of `AAAA` alone); otherwise a truthy `imageUrl` is fetched; with
neither usable the resolver fails with the no-image-data error. -/
theorem imageResolver_caseSplit :
    (∀ net image s, image.base64Data = some s → jsTrim s ≠ "" →
      resolveImagePayload net image = .ok ⟨base64Decode s, image.mimeType⟩)
    ∧ (∀ net mime,
      resolveImagePayload net
          ⟨"expense-summary-bar.png", mime, some (normalizeBase64 "data:image/png;base64,AAAA"),
            none, none⟩
        = .ok ⟨base64Decode "AAAA", mime⟩)
    ∧ (base64Decode "AAAA" = [0, 0, 0])
    ∧ (∀ net image u, (∀ s, image.base64Data = some s → jsTrim s = "") →
      image.imageUrl = some u → u ≠ "" →
      resolveImagePayload net image = downloadImageFromUrl net u 0)
    ∧ (∀ net image, (∀ s, image.base64Data = some s → jsTrim s = "") →
      (∀ u, image.imageUrl = some u → u = "") →
      resolveImagePayload net image = .error .noImageData) := by
  have hblank : ∀ s : String, jsTrim s ≠ "" → s ≠ "" := by
    intro s h hs
    exact h (by rw [hs]; rfl)
  refine ⟨?_, ?_, rfl, ?_, ?_⟩
  · intro net image s hb ht
    obtain ⟨fn, mt, b, u, c⟩ := image
    simp only at hb
    subst hb
    simp only [resolveImagePayload]
    rw [if_pos ⟨hblank s ht, ht⟩]
  · intro net mime
    rfl
  · intro net image u hb hu hne
    obtain ⟨fn, mt, b, uo, c⟩ := image
    simp only at hb hu
    subst hu
    cases b with
    | none => simp only [resolveImagePayload, resolveViaUrl, if_pos hne]
    | some s =>
      have hs : jsTrim s = "" := hb s rfl
      simp only [resolveImagePayload, hs]
      rw [if_neg (by simp [hs])]
      simp only [resolveViaUrl, if_pos hne]
  · intro net image hb hu
    obtain ⟨fn, mt, b, uo, c⟩ := image
    simp only at hb hu
    have hurl : resolveViaUrl net ⟨fn, mt, b, uo, c⟩ = .error .noImageData := by
      cases uo with
      | none => rfl
      | some u =>
        have : u = "" := hu u rfl
        subst this
        simp [resolveViaUrl]
    cases b with
    | none => simpa only [resolveImagePayload] using hurl
    | some s =>
      have hs : jsTrim s = "" := hb s rfl
      simp only [resolveImagePayload]
      rw [if_neg (by simp [hs])]
      exact hurl

/-- C8: the URL fetch follows redirects up to the bound 3 — a chain of
exactly three redirects ending in a success response succeeds with the
final body and content type, a chain of four redirects fails with the
too-many-redirects error, and any response with status at least 400 fails
with the download error carrying that status. -/
theorem urlFetch_redirectBound :
    (downloadImageFromUrl chainNet3 "u0" 0 = .ok ⟨[137, 80, 78, 71], .str "image/png"⟩)
    ∧ (downloadImageFromUrl chainNet4 "u0" 0 = .error .tooManyRedirects)
    ∧ (∀ net u redirectCount, (net u).statusCode ≥ 400 →
      downloadImageFromUrl net u redirectCount = .error (.downloadFailed (net u).statusCode)) := by
  refine ⟨?_, ?_, ?_⟩
  · simp [downloadImageFromUrl, chainNet3, downloadCompleteBody, headerContentTypeJs, MAX_REDIRECTS]
  · simp [downloadImageFromUrl, chainNet4, downloadCompleteBody, headerContentTypeJs, MAX_REDIRECTS]
  · intro net u redirectCount h
    have hnotlt : ¬(net u).statusCode < 400 := by omega
    rw [downloadImageFromUrl]
    split
    · rw [if_neg (fun hc => hnotlt hc.2.1)]
      simp [downloadCompleteBody, h]
    · simp [downloadCompleteBody, h]

/-- C10: the workflow runner fails with the configuration error whenever the
agent credential is absent or empty, for every run outcome (so the checks
precede any agent invocation); with a credential but an empty part list it
fails with the invalid-input error, again for every run outcome; with both
preconditions met it fails with the empty-result error exactly when the run
produces no (or an empty) final output, and otherwise returns a result
carrying the final output text. -/
theorem workflowRunner_errorOrder :
    (∀ runAgent parts, runWorkflowFromParts none runAgent parts = .error .configurationError)
    ∧ (∀ runAgent parts, runWorkflowFromParts (some "") runAgent parts = .error .configurationError)
    ∧ (∀ k runAgent, k ≠ "" → runWorkflowFromParts (some k) runAgent [] = .error .invalidInputError)
    ∧ (∀ k parts, k ≠ "" → parts ≠ [] →
      runWorkflowFromParts (some k) none parts = .error .emptyResultError)
    ∧ (∀ k parts items, k ≠ "" → parts ≠ [] →
      runWorkflowFromParts (some k) (some ⟨none, items⟩) parts = .error .emptyResultError)
    ∧ (∀ k parts items, k ≠ "" → parts ≠ [] →
      runWorkflowFromParts (some k) (some ⟨some "", items⟩) parts = .error .emptyResultError)
    ∧ (∀ k parts items t, k ≠ "" → parts ≠ [] → t ≠ "" →
      ∃ images, runWorkflowFromParts (some k) (some ⟨some t, items⟩) parts = .ok ⟨t, images⟩) := by
  have hkey : ∀ k : String, k ≠ "" → ¬(some k = (none : Option String) ∨ some k = some "") := by
    intro k hk hc
    rcases hc with hc | hc
    · exact Option.noConfusion hc
    · exact hk (Option.some.injEq k "" ▸ hc)
  refine ⟨?_, ?_, ?_, ?_, ?_, ?_, ?_⟩
  · intro runAgent parts
    rfl
  · intro runAgent parts
    rfl
  · intro k runAgent hk
    simp only [runWorkflowFromParts]
    rw [if_neg (hkey k hk)]
    rfl
  · intro k parts hk hp
    simp only [runWorkflowFromParts]
    rw [if_neg (hkey k hk), if_neg (by simpa [List.isEmpty_iff] using hp)]
  · intro k parts items hk hp
    simp only [runWorkflowFromParts]
    rw [if_neg (hkey k hk), if_neg (by simpa [List.isEmpty_iff] using hp)]
  · intro k parts items hk hp
    simp only [runWorkflowFromParts]
    rw [if_neg (hkey k hk), if_neg (by simpa [List.isEmpty_iff] using hp)]
    rfl
  · intro k parts items t hk hp ht
    obtain ⟨images, hi⟩ := extractExpenseSummaryCharts_total (jsCoalesce items (.arr []))
    refine ⟨images, ?_⟩
    simp only [runWorkflowFromParts]
    rw [if_neg (hkey k hk), if_neg (by simpa [List.isEmpty_iff] using hp), if_neg ht, hi]

theorem mapGetOrEmpty_set (m : PendingMap) (chatId : Int) (photos : List StoredPhoto) :
    mapGetOrEmpty (mapSet m chatId photos) chatId = photos := by
  simp [mapGetOrEmpty, mapSet]

theorem processPhotos_buffer (chatId : Int) (ps : List StoredPhoto) :
    ∀ m : PendingMap, ps ≠ [] →
      (processPhotos m chatId ps).1 chatId = some (mapGetOrEmpty m chatId ++ ps) := by
  induction ps with
  | nil => intro m h; exact absurd rfl h
  | cons p rest ih =>
    intro m _
    cases hrest : rest with
    | nil =>
      simp only [processPhotos, photoNoCaption, mapSet, mapGetOrEmpty]
      simp
    | cons q qs =>
      rw [← hrest]
      have hne : rest ≠ [] := by simp [hrest]
      simp only [processPhotos, photoNoCaption]
      rw [ih _ hne, mapGetOrEmpty_set]
      simp

theorem processPhotos_length (chatId : Int) (ps : List StoredPhoto) :
    ∀ m : PendingMap, (processPhotos m chatId ps).2.length = ps.length := by
  induction ps with
  | nil => intro m; rfl
  | cons p rest ih =>
    intro m
    simp only [processPhotos, List.length_cons, ih]

theorem processPhotos_replies (chatId : Int) (ps : List StoredPhoto) :
    ∀ (m : PendingMap) (i : Nat), i < ps.length →
      (processPhotos m chatId ps).2.get? i
        = some (photoReceivedReply ((mapGetOrEmpty m chatId).length + i + 1)) := by
  induction ps with
  | nil => intro m i h; exact absurd h (by simp)
  | cons p rest ih =>
    intro m i h
    cases i with
    | zero =>
      simp only [processPhotos, photoNoCaption, List.get?]
      simp [List.length_append]
    | succ j =>
      have hj : j < rest.length := by simpa [Nat.succ_lt_succ_iff] using h
      simp only [processPhotos, photoNoCaption, List.get?]
      rw [ih _ j hj, mapGetOrEmpty_set]
      congr 2
      simp only [List.length_append, List.length_cons, List.length_nil]
      omega

theorem processPhotos_other (chatId d : Int) (ps : List StoredPhoto) (hd : d ≠ chatId) :
    ∀ m : PendingMap, (processPhotos m chatId ps).1 d = m d := by
  induction ps with
  | nil => intro m; rfl
  | cons p rest ih =>
    intro m
    simp only [processPhotos, photoNoCaption]
    rw [ih]
    simp [mapSet, hd]

/-- C1: starting from an empty (or absent) buffer for a chat, a sequence of
N caption-less photo messages leaves that chat's pending buffer holding
exactly those N photos in arrival order, one reply is sent per message, and
the reply to the N-th message reports the running count N; the buffers of
every other chat are untouched by these appends, and by `set` and `delete`
operations keyed to this chat generally. -/
theorem pendingBuffer_accumulates (m0 : PendingMap) (chatId d : Int) (ps : List StoredPhoto)
    (hstart : mapGetOrEmpty m0 chatId = []) (hne : ps ≠ []) (hd : d ≠ chatId) :
    (processPhotos m0 chatId ps).1 chatId = some ps
    ∧ (processPhotos m0 chatId ps).2.length = ps.length
    ∧ (processPhotos m0 chatId ps).2.get? (ps.length - 1) = some (photoReceivedReply ps.length)
    ∧ (processPhotos m0 chatId ps).1 d = m0 d
    ∧ (∀ m : PendingMap, mapDelete m chatId d = m d)
    ∧ (∀ (m : PendingMap) (photos : List StoredPhoto), mapSet m chatId photos d = m d) := by
  have hlen : 0 < ps.length := List.length_pos.mpr hne
  refine ⟨?_, processPhotos_length chatId ps m0, ?_, processPhotos_other chatId d ps hd m0, ?_, ?_⟩
  · rw [processPhotos_buffer chatId ps m0 hne, hstart]
    simp
  · rw [processPhotos_replies chatId ps m0 (ps.length - 1) (by omega), hstart]
    congr 2
    simp only [List.length_nil]
    omega
  · intro m
    simp [mapDelete, hd]
  · intro m photos
    simp [mapSet, hd]

/-- C2: in the text branch and the captioned-photo branch, once content
parts have been built from the buffered photos the buffer entry is deleted,
and it stays deleted for every outcome of the subsequent workflow
invocation — drained photos are never processed a second time; when the
part-building step itself throws (before the drain), the buffer is left
exactly as it was (in the captioned branch, still holding the photos
including the newly appended one). -/
theorem drainedBuffer_staysDrained (m : PendingMap) (chatId : Int) (photo : StoredPhoto)
    (buildParts : List StoredPhoto → Except String (List InputPartWithFileId))
    (runWorkflow : List InputPartWithFileId → Except String Unit) :
    ((∃ parts, buildParts (mapGetOrEmpty m chatId) = .ok parts) →
      (textBranch m chatId buildParts runWorkflow).1 chatId = none)
    ∧ ((∃ e, buildParts (mapGetOrEmpty m chatId) = .error e) →
      (textBranch m chatId buildParts runWorkflow).1 = m)
    ∧ ((∃ parts, buildParts (mapGetOrEmpty m chatId ++ [photo]) = .ok parts) →
      (photoCaptionBranch m chatId photo buildParts runWorkflow).1 chatId = none)
    ∧ ((∃ e, buildParts (mapGetOrEmpty m chatId ++ [photo]) = .error e) →
      (photoCaptionBranch m chatId photo buildParts runWorkflow).1 chatId
        = some (mapGetOrEmpty m chatId ++ [photo])) := by
  refine ⟨?_, ?_, ?_, ?_⟩
  · rintro ⟨parts, hb⟩
    simp only [textBranch, hb]
    cases runWorkflow parts <;> simp [mapDelete]
  · rintro ⟨e, hb⟩
    simp only [textBranch, hb]
  · rintro ⟨parts, hb⟩
    simp only [photoCaptionBranch, mapGetOrEmpty_set, hb]
    cases runWorkflow parts <;> simp [mapDelete]
  · rintro ⟨e, hb⟩
    simp only [photoCaptionBranch, mapGetOrEmpty_set, hb]
    simp [mapSet]

theorem uploadIds_length {σ : Type} (uploadFile : σ → StoredPhoto → σ × String)
    (photos : List StoredPhoto) :
    ∀ store : σ, (uploadPhotosAndGetFileIds uploadFile store photos).2.length = photos.length := by
  induction photos with
  | nil => intro store; rfl
  | cons p rest ih =>
    intro store
    simp only [uploadPhotosAndGetFileIds, List.length_cons, ih]

/-- C3: the content-part builder returns exactly one part more than there
are photos — the parts list is the image parts, one per sequentially
obtained file id and in the same order, each with detail level `high`,
followed by the single trailing text part carrying the given text; the
empty photo list yields just the text part. The last conjunct exhibits the
sequential upload order: the head photo is uploaded against the current
store state, and the remaining ids are obtained from the updated state. -/
theorem contentPartBuilder_shape {σ : Type} (uploadFile : σ → StoredPhoto → σ × String) (store : σ)
    (text : String) (photos : List StoredPhoto) :
    ((buildContentPartsWithFileIds uploadFile store text photos).2
      = (uploadPhotosAndGetFileIds uploadFile store photos).2.map
          (fun id => .input_image id .high) ++ [.input_text text])
    ∧ ((buildContentPartsWithFileIds uploadFile store text photos).2.length = photos.length + 1)
    ∧ (∀ i, i < photos.length →
      (buildContentPartsWithFileIds uploadFile store text photos).2.get? i
        = ((uploadPhotosAndGetFileIds uploadFile store photos).2.get? i).map
            (fun id => .input_image id .high))
    ∧ ((buildContentPartsWithFileIds uploadFile store text photos).2.get? photos.length
      = some (.input_text text))
    ∧ (photos = [] →
      (buildContentPartsWithFileIds uploadFile store text photos).2 = [.input_text text])
    ∧ (∀ (s : σ) (p : StoredPhoto) (rest : List StoredPhoto),
      uploadPhotosAndGetFileIds uploadFile s (p :: rest)
        = ((uploadPhotosAndGetFileIds uploadFile (uploadFile s p).1 rest).1,
            (uploadFile s p).2 :: (uploadPhotosAndGetFileIds uploadFile (uploadFile s p).1 rest).2)) := by
  have hlen := uploadIds_length uploadFile photos store
  refine ⟨rfl, ?_, ?_, ?_, ?_, ?_⟩
  · simp only [buildContentPartsWithFileIds, List.length_append, List.length_map, hlen]
    rfl
  · intro i hi
    simp only [buildContentPartsWithFileIds]
    rw [List.get?_append (by simpa [hlen] using hi)]
    exact List.get?_map _ _ _
  · simp only [buildContentPartsWithFileIds]
    rw [List.get?_append_right (by simp [hlen])]
    simp [hlen]
  · intro h
    subst h
    rfl
  · intro s p rest
    rfl

/-- Witness for C1: one photo appended to an initially absent buffer of chat
1 leaves the buffer holding exactly that photo, the reply reports count 1,
and chat 2 is untouched. -/
theorem pendingBuffer_accumulates_witness :
    (processPhotos (fun _ => none) 1 [⟨"file-1", "photo.jpg", "image/jpeg", "QUFB"⟩]).1 1
      = some [⟨"file-1", "photo.jpg", "image/jpeg", "QUFB"⟩]
    ∧ (processPhotos (fun _ => none) 1 [⟨"file-1", "photo.jpg", "image/jpeg", "QUFB"⟩]).2.get? 0
      = some (photoReceivedReply 1)
    ∧ (processPhotos (fun _ => none) 1 [⟨"file-1", "photo.jpg", "image/jpeg", "QUFB"⟩]).1 2 = none := by
  have h := pendingBuffer_accumulates (fun _ => none) 1 2
    [⟨"file-1", "photo.jpg", "image/jpeg", "QUFB"⟩] rfl (by simp) (by decide)
  exact ⟨h.1, h.2.2.1, h.2.2.2.1⟩

/-- Witness for C2: with a successful build and a failing workflow the
buffer of chat 1 ends empty; with a failing build it is left as it was. -/
theorem drainedBuffer_staysDrained_witness :
    (textBranch (fun _ => some [⟨"f", "p.jpg", "image/jpeg", "QUFB"⟩]) 1
        (fun _ => .ok []) (fun _ => .error "boom")).1 1 = none
    ∧ (textBranch (fun _ => some [⟨"f", "p.jpg", "image/jpeg", "QUFB"⟩]) 1
        (fun _ => .error "fail") (fun _ => .ok ())).1
      = (fun _ => some [⟨"f", "p.jpg", "image/jpeg", "QUFB"⟩])
    ∧ (photoCaptionBranch (fun _ => none) 1 ⟨"f", "p.jpg", "image/jpeg", "QUFB"⟩
        (fun _ => .ok []) (fun _ => .error "boom")).1 1 = none
    ∧ (photoCaptionBranch (fun _ => none) 1 ⟨"f", "p.jpg", "image/jpeg", "QUFB"⟩
        (fun _ => .error "fail") (fun _ => .ok ())).1 1
      = some (mapGetOrEmpty (fun _ => none) 1 ++ [⟨"f", "p.jpg", "image/jpeg", "QUFB"⟩]) :=
  ⟨(drainedBuffer_staysDrained (fun _ => some [⟨"f", "p.jpg", "image/jpeg", "QUFB"⟩]) 1
      ⟨"f", "p.jpg", "image/jpeg", "QUFB"⟩ (fun _ => .ok []) (fun _ => .error "boom")).1 ⟨[], rfl⟩,
   (drainedBuffer_staysDrained (fun _ => some [⟨"f", "p.jpg", "image/jpeg", "QUFB"⟩]) 1
      ⟨"f", "p.jpg", "image/jpeg", "QUFB"⟩ (fun _ => .error "fail") (fun _ => .ok ())).2.1
      ⟨"fail", rfl⟩,
   (drainedBuffer_staysDrained (fun _ => none) 1 ⟨"f", "p.jpg", "image/jpeg", "QUFB"⟩
      (fun _ => .ok []) (fun _ => .error "boom")).2.2.1 ⟨[], rfl⟩,
   (drainedBuffer_staysDrained (fun _ => none) 1 ⟨"f", "p.jpg", "image/jpeg", "QUFB"⟩
      (fun _ => .error "fail") (fun _ => .ok ())).2.2.2 ⟨"fail", rfl⟩⟩

/-- Witness for C3: with two photos and a counter-state file store, the
builder yields three parts, the first being the image part of the first
uploaded id and the last the trailing text part; the empty photo list
yields the single text part. -/
theorem contentPartBuilder_shape_witness :
    ((buildContentPartsWithFileIds (fun (n : Nat) _ => (n + 1, "file")) 0 "午餐100元"
        [⟨"a", "a.jpg", "image/jpeg", "QQ=="⟩, ⟨"b", "b.jpg", "image/jpeg", "Qg=="⟩]).2.length = 3)
    ∧ ((buildContentPartsWithFileIds (fun (n : Nat) _ => (n + 1, "file")) 0 "午餐100元"
        [⟨"a", "a.jpg", "image/jpeg", "QQ=="⟩, ⟨"b", "b.jpg", "image/jpeg", "Qg=="⟩]).2.get? 0
      = ((uploadPhotosAndGetFileIds (fun (n : Nat) _ => (n + 1, "file")) 0
          [⟨"a", "a.jpg", "image/jpeg", "QQ=="⟩, ⟨"b", "b.jpg", "image/jpeg", "Qg=="⟩]).2.get? 0).map
          (fun id => .input_image id .high))
    ∧ ((buildContentPartsWithFileIds (fun (n : Nat) _ => (n + 1, "file")) 0 "午餐100元"
        [⟨"a", "a.jpg", "image/jpeg", "QQ=="⟩, ⟨"b", "b.jpg", "image/jpeg", "Qg=="⟩]).2.get? 2
      = some (.input_text "午餐100元"))
    ∧ ((buildContentPartsWithFileIds (fun (n : Nat) _ => (n + 1, "file")) 0 "hi" []).2
      = [.input_text "hi"]) := by
  have h2 := contentPartBuilder_shape (fun (n : Nat) _ => (n + 1, "file")) 0 "午餐100元"
    [⟨"a", "a.jpg", "image/jpeg", "QQ=="⟩, ⟨"b", "b.jpg", "image/jpeg", "Qg=="⟩]
  have h0 := contentPartBuilder_shape (fun (n : Nat) _ => (n + 1, "file")) 0 "hi" []
  exact ⟨h2.2.1, h2.2.2.1 0 (by decide), h2.2.2.2.1, h0.2.2.2.2.1 rfl⟩

/-- Witness for C6 (amended): the `json` sub-field is preferred, a string
`data` field is JSON-decoded, and a string output is JSON-parsed. -/
theorem structuredData_fallbackChain_witness :
    extractStructuredData (.obj [("json", .obj [("x", .num 1)])])
      = .ok (lookupField [("json", .obj [("x", .num 1)])] "json")
    ∧ extractStructuredData (.obj [("data", .str "\x7b\"a\":2\x7d")]) = .ok (.obj [("a", .num 2)])
    ∧ extractStructuredData (.str "\x7b\"a\":3\x7d") = .ok (.obj [("a", .num 3)]) :=
  ⟨structuredData_fallbackChain.1 [("json", .obj [("x", .num 1)])] rfl,
   structuredData_fallbackChain.2.2.1 [("data", .str "\x7b\"a\":2\x7d")] (.obj [("a", .num 2)])
     rfl rfl rfl,
   structuredData_fallbackChain.2.2.2.2.2.2.2.2 "\x7b\"a\":3\x7d" (.obj [("a", .num 3)])
     rfl (by decide)⟩

/-- Witness for C7: usable base64 data is decoded directly, the data-URL
prefix case delivers the decoding of `AAAA` alone, a URL-only image is
fetched, and an image with neither datum fails with the no-image-data
error. -/
theorem imageResolver_caseSplit_witness :
    resolveImagePayload (fun _ => ⟨200, none, none, []⟩)
        ⟨"f.png", .str "image/png", some "QUFB", none, none⟩
      = .ok ⟨base64Decode "QUFB", .str "image/png"⟩
    ∧ resolveImagePayload (fun _ => ⟨200, none, none, []⟩)
        ⟨"expense-summary-bar.png", .str "image/png",
          some (normalizeBase64 "data:image/png;base64,AAAA"), none, none⟩
      = .ok ⟨base64Decode "AAAA", .str "image/png"⟩
    ∧ resolveImagePayload (fun _ => ⟨200, none, none, []⟩)
        ⟨"f.png", .undefined, none, some "http://x/img.png", none⟩
      = downloadImageFromUrl (fun _ => ⟨200, none, none, []⟩) "http://x/img.png" 0
    ∧ resolveImagePayload (fun _ => ⟨200, none, none, []⟩) ⟨"f.png", .undefined, none, none, none⟩
      = .error .noImageData :=
  ⟨imageResolver_caseSplit.1 (fun _ => ⟨200, none, none, []⟩)
      ⟨"f.png", .str "image/png", some "QUFB", none, none⟩ "QUFB" rfl (by decide),
   imageResolver_caseSplit.2.1 (fun _ => ⟨200, none, none, []⟩) (.str "image/png"),
   imageResolver_caseSplit.2.2.2.1 (fun _ => ⟨200, none, none, []⟩)
      ⟨"f.png", .undefined, none, some "http://x/img.png", none⟩ "http://x/img.png"
      (fun s h => Option.noConfusion h) rfl (by decide),
   imageResolver_caseSplit.2.2.2.2 (fun _ => ⟨200, none, none, []⟩)
      ⟨"f.png", .undefined, none, none, none⟩
      (fun s h => Option.noConfusion h) (fun u h => Option.noConfusion h)⟩

/-- Witness for C8: a plain 404 response fails with the download error
carrying status 404. -/
theorem urlFetch_redirectBound_witness :
    downloadImageFromUrl (fun _ => ⟨404, none, none, []⟩) "http://x/a.png" 0
      = .error (.downloadFailed 404) :=
  urlFetch_redirectBound.2.2 (fun _ => ⟨404, none, none, []⟩) "http://x/a.png" 0 (by decide)

/-- Witness for C9: the key stage resolves `/detail` to the `detail` entry,
and the alias stage handles `生成最近开销报表` once the key stage fails. -/
theorem quickActionResolution_witness :
    resolveQuickAction "/detail"
      = some ((if strStartsWith (jsTrim "/detail") "/" then strDropOne (jsTrim "/detail")
          else jsTrim "/detail"),
        ⟨"查看分类支出详情", "请提供最近一段时间各分类的支出详情。", ["查看分类支出详情", "/detail"]⟩)
    ∧ resolveQuickAction "生成最近开销报表"
      = QUICK_ACTIONS.find?
          (fun e => e.2.aliases.contains (jsTrim "生成最近开销报表")
            || e.2.title == jsTrim "生成最近开销报表") :=
  ⟨quickActionResolution.2.2.2.2.1 "/detail"
      ⟨"查看分类支出详情", "请提供最近一段时间各分类的支出详情。", ["查看分类支出详情", "/detail"]⟩
      (by decide) rfl,
   quickActionResolution.2.2.2.2.2 "生成最近开销报表" (by decide) rfl⟩

/-- Witness for C10: a configured credential with an empty part list fails
with the invalid-input error, and a successful run returns the final text. -/
theorem workflowRunner_errorOrder_witness :
    runWorkflowFromParts (some "sk-test") none [] = .error .invalidInputError
    ∧ (∃ images, runWorkflowFromParts (some "sk-test") (some ⟨some "done", .null⟩)
        [.input_text "hi"] = .ok ⟨"done", images⟩) :=
  ⟨workflowRunner_errorOrder.2.2.1 "sk-test" none (by decide),
   workflowRunner_errorOrder.2.2.2.2.2.2 "sk-test" [.input_text "hi"] .null "done"
     (by decide) (List.cons_ne_nil _ _) (by decide)⟩
